import Mathlib

/-!
Shallow embedding of `src/matrix.rs` (the `linalg` crate): a dense
two-dimensional matrix `Mat2<T>` stored as a vector of row vectors, with
structural mutation (row/column append, augment), elementary row operations,
a column iterator, Gauss-Jordan `reduce`, and the RREF validator `is_rref`.

Conventions of the embedding:
* Rust `~[T]` becomes `List T`; `uint` becomes `Nat`.
* Operations that can hit a Rust runtime failure (out-of-bounds indexing)
  in the modelled region return `Option`/`Except`, with `none`/`.error`
  standing for the aborted call.
* Operations whose out-of-bounds accesses are guarded at every modelled
  call site (`set_row`, `swap_rows`, `scale_row`) are embedded as total
  functions that leave the matrix unchanged outside the guarded region;
  every theorem below only uses them in range, matching the source paths
  that do not abort.
* Mutating methods become functions returning the new matrix; methods that
  return a success flag return `Bool × Mat2 T`.
-/

set_option autoImplicit false

namespace Linalg

/-- The matrix record of `matrix.rs`: `data` is the row storage, `n` the
stored row count, `m` the stored column count.  The source comments state
the invariant `data.len() == n` and every row has length `m`, but the
fields are stored separately exactly as in the source, so the embedding
can express states where the invariant is broken. -/
structure Mat2 (T : Type) where
  data : List (List T)
  n : Nat
  m : Nat
  deriving Repr, DecidableEq

namespace Mat2

variable {T : Type}

/-- Embeds `Mat2::from_vec`: `None` on an empty outer vector or when some
inner vector's length differs from the first's; otherwise wraps the vector
verbatim with `n` the outer length and `m` the first row's length. -/
def from_vec (v : List (List T)) : Option (Mat2 T) :=
  if v.length = 0 then none
  else if v.all (fun x => decide (x.length = (v.headD []).length)) then
    some ⟨v, v.length, (v.headD []).length⟩
  else none

/-- Embeds `Mat2::get_row_opt` (`data.get_opt(i)` as a slice). -/
def get_row_opt (M : Mat2 T) (i : Nat) : Option (List T) :=
  M.data[i]?

/-- Embeds the always-aborting-on-out-of-bounds indexing `self.data[i][j]`
used by `Mat2::get`; `none` is the aborted call. -/
def get_idx (M : Mat2 T) (i j : Nat) : Option T :=
  (M.data[i]?).bind (fun r => r[j]?)

/-- Embeds `Mat2::get_opt`.  The source condition is literally
`i > self.m || j > self.n` (row index against the column count and column
index against the row count, with `>` rather than `>=`); when the condition
fails the source indexes `self.data[i][j]`, which aborts if actually out of
bounds — that abort is `Except.error ()`. -/
def get_opt (M : Mat2 T) (i j : Nat) : Except Unit (Option T) :=
  if i > M.m ∨ j > M.n then Except.ok none
  else match get_idx M i j with
    | some x => Except.ok (some x)
    | none => Except.error ()

/-- Embeds `Mat2::set_row` (`self.data[i] = r`).  The source aborts when
`i` is out of range; `List.set` leaves the list unchanged there, and every
use below guards `i < data.length`. -/
def set_row (M : Mat2 T) (i : Nat) (r : List T) : Mat2 T :=
  { M with data := M.data.set i r }

/-- Embeds `Mat2::swap_rows` (`self.data.swap(i, j)`).  The source aborts
on an out-of-range index; the embedding is total and only used in range. -/
def swap_rows (M : Mat2 T) (i j : Nat) : Mat2 T :=
  { M with data := (M.data.set i (M.data.getD j [])).set j (M.data.getD i []) }

/-- Embeds `Mat2::append_column`.  The length check compares the new
column's length against `self.n` (the row count), then the source does
`self.n += 1` — it increments the ROW count, not the column count — and
pushes one element onto each row.  The row-wise push is the `zipWith`
below; the source's unsafe indexing visits exactly `column.len()` rows,
which under the data invariant (`data.len() == n`) is all of them. -/
def append_column (M : Mat2 T) (column : List T) : Bool × Mat2 T :=
  if M.n ≠ column.length then (false, M)
  else (true, { data := List.zipWith (fun row x => row ++ [x]) M.data column,
                n := M.n + 1, m := M.m })

/-- Embeds `Mat2::append_row`: checks `self.m == row.len()`, then pushes
the row and increments `self.n`. -/
def append_row (M : Mat2 T) (row : List T) : Bool × Mat2 T :=
  if M.m ≠ row.length then (false, M)
  else (true, { data := M.data ++ [row], n := M.n + 1, m := M.m })

/-- Embeds `Mat2::augment`: checks `self.n == other.n`, then appends each
row of `other` to the corresponding row of `self` and adds `other.m` to
`self.m`.  The source's unsafe loop visits `other.data.len()` rows, which
under the data invariant is also `self.data.len()`; `zipWith` is exact
there. -/
def augment (M : Mat2 T) (other : Mat2 T) : Bool × Mat2 T :=
  if M.n ≠ other.n then (false, M)
  else (true, { data := List.zipWith (fun row orow => row ++ orow) M.data other.data,
                n := M.n, m := M.m + other.m })

/-- Embeds `Mat2::scale_row`: multiplies each entry of row `i` by `a` on
the right (`self.data[i][idx] * a`).  The source aborts when `i` is out of
range; the embedding is total and only used in range. -/
def scale_row [Mul T] (M : Mat2 T) (i : Nat) (a : T) : Mat2 T :=
  { M with data := M.data.set i ((M.data.getD i []).map (fun x => x * a)) }

/-- Embeds `Mat2::add_scaled`: builds `data[i]` mapped through
`x * a + data[j][idx]` (reading both rows fully) and then `set_row(j, ·)`.
The source aborts when `i` or `j` is out of range, or when row `i` is
longer than row `j` (the inner indexing runs over row `i`'s length);
`none` is the aborted call. -/
def add_scaled [Mul T] [Add T] (M : Mat2 T) (i j : Nat) (a : T) : Option (Mat2 T) :=
  match M.data[i]?, M.data[j]? with
  | some ri, some rj =>
      if ri.length ≤ rj.length then
        some (set_row M j (List.zipWith (fun x y => x * a + y) ri rj))
      else none
  | _, _ => none

end Mat2

/-- The state of `ColumnIterator<'a, T>`: the target column and the row
cursor `i`.  The borrowed matrix is passed to `next` explicitly. -/
structure ColumnIterator where
  col : Nat
  i : Nat
  deriving Repr, DecidableEq

namespace ColumnIterator

variable {T : Type}

/-- Embeds `ColumnIterator::next`: looks up `data.get_opt(i)` then
`row.get_opt(col)`, and advances the cursor only when an element was
produced. -/
def next (M : Mat2 T) (it : ColumnIterator) : Option T × ColumnIterator :=
  match (M.data[it.i]?).bind (fun s => s[it.col]?) with
  | some x => (some x, { it with i := it.i + 1 })
  | none => (none, it)

/-- Runs `next` a fixed number of times, collecting every produced
`Option` in order together with the final iterator state. -/
def run (M : Mat2 T) : ColumnIterator → Nat → List (Option T) × ColumnIterator
  | it, 0 => ([], it)
  | it, k + 1 =>
    let s := next M it
    let r := run M s.2 k
    (s.1 :: r.1, r.2)

end ColumnIterator

namespace Mat2

variable {T : Type}

/-- The full stream produced by `column_iter(col)`: elements of column
`col` row by row, stopping at the first row where the lookup fails (for a
rectangular matrix with `col` in range this is the whole column; for an
out-of-range `col` it is empty). -/
def column_list : List (List T) → Nat → List T
  | [], _ => []
  | row :: rest, col =>
    match row[col]? with
    | some x => x :: column_list rest col
    | none => []

/-- Embeds the fold in `is_rref` computing `zeroes_not_at_end`: the state
is `(seen_all_zero, seen_non_zero_after_all_zero)`; an all-zero row sets
the first flag, a nonzero row sets the second flag to the first. -/
def zeroes_fold [Zero T] [DecidableEq T] (data : List (List T)) : Bool × Bool :=
  data.foldl
    (fun tup row =>
      if row.all (fun x => decide (x = 0)) then (true, tup.2)
      else (tup.1, if tup.1 then true else false))
    (false, false)

/-- The enumerated scan of a row in `is_rref`: the source walks the row
left to right and acts at the first entry different from zero; this
returns that entry's index and value. -/
def firstNonzero [Zero T] [DecidableEq T] : List T → Nat → Option (Nat × T)
  | [], _ => none
  | x :: xs, k => if x = 0 then firstNonzero xs (k + 1) else some (k, x)

/-- Embeds the labelled row loop of `is_rref`.  For each row (with its
index), at the first nonzero entry: reject unless it is one, reject when
its column index is strictly smaller than the previous leading column,
then scan `column_iter(leftmostidx)` and reject when any other row has a
nonzero entry there; afterwards continue to the next row carrying the new
leading column index. -/
def rref_rows [Zero T] [One T] [DecidableEq T]
    (M : Mat2 T) : List (List T) → Nat → Nat → Bool
  | [], _, _ => true
  | row :: rest, rowidx, last =>
    match firstNonzero row 0 with
    | none => rref_rows M rest (rowidx + 1) last
    | some (lf, v) =>
      if v ≠ 1 then false
      else if lf < last then false
      else if (column_list M.data lf).enum.any
          (fun p => decide (p.1 ≠ rowidx ∧ p.2 ≠ 0)) then false
      else rref_rows M rest (rowidx + 1) lf

/-- Embeds `Mat2::is_rref`: first the all-zero-rows-at-the-bottom fold,
then the leading-one / increasing-pivot / clean-pivot-column row loop.
Both iterate over `row_iter`, i.e. over all rows of `data`. -/
def is_rref [Zero T] [One T] [DecidableEq T] (M : Mat2 T) : Bool :=
  if (zeroes_fold M.data).2 then false
  else rref_rows M M.data 0 0

/-- Embeds the inner `for k in range(1, m)` loop of `Mat2::reduce`.  Its
body breaks at `k == r` and otherwise only reads `self.get(r, j)` and
`self.get(r, i)` into debug logging; the only observable effect is the
abort when one of those indexings is out of bounds, so the embedding
returns `none` exactly there. -/
def reduce_inner (M : Mat2 T) (r j i : Nat) : List Nat → Option Unit
  | [] => some ()
  | k :: ks =>
    if k = r then some ()
    else match get_idx M r j, get_idx M r i with
      | some _, some _ => reduce_inner M r j i ks
      | _, _ => none

/-- Embeds the column loop of `Mat2::reduce`.  `mm` is the row count
`self.n` captured at entry (the source binds it as `m`); the list carries
the remaining column indices `j`; `r` is the pivot-row counter.  Per
column: if every entry of `column_iter(j)` after skipping `r + 1` is zero,
continue; otherwise if `r + 1 < mm + 1`, increment `r`, swap rows `i` and
`r` (equal by then), scale row `r` by `one / get(r, j)`, and run the
read-only inner loop. -/
def reduce_loop [DecidableEq T] [Zero T] [One T] [Mul T] [Div T]
    (mm : Nat) : List Nat → Mat2 T → Nat → Option (Mat2 T)
  | [], M, _ => some M
  | j :: js, M, r =>
    let i := r + 1
    if ((column_list M.data j).drop i).all (fun e => decide (e = 0)) then
      reduce_loop mm js M r
    else if i < mm + 1 then
      let r2 := r + 1
      let M1 := swap_rows M i r2
      match get_idx M1 r2 j with
      | none => none
      | some p =>
        let M2 := scale_row M1 r2 (1 / p)
        match reduce_inner M2 r2 j i (List.range' 1 (mm - 1)) with
        | some _ => reduce_loop mm js M2 r2
        | none => none
    else reduce_loop mm js M r

/-- Embeds `Mat2::reduce`: binds `(m, n, r) = (self.n, self.m, 0)` and
loops over the columns `0..n`. -/
def reduce [DecidableEq T] [Zero T] [One T] [Mul T] [Div T]
    (M : Mat2 T) : Option (Mat2 T) :=
  reduce_loop M.n (List.range M.m) M 0

end Mat2

/-!
Theorems settling the claims.
-/

/-- C1: the claim says `reduce` always produces a matrix satisfying
`is_rref` (and is idempotent).  The source's `reduce` does not: on the
field-valued matrix `[[1,2],[1,1]]` over `ℚ` it completes without abort,
returns the matrix unchanged (it only ever swaps a row with itself and
rescales; its elimination loop never writes), and the result fails
`is_rref`. -/
theorem reduce_not_rref_on_counterexample :
    Mat2.reduce (⟨[[(1 : ℚ), 2], [1, 1]], 2, 2⟩ : Mat2 ℚ) =
      some ⟨[[(1 : ℚ), 2], [1, 1]], 2, 2⟩ ∧
    Mat2.is_rref (⟨[[(1 : ℚ), 2], [1, 1]], 2, 2⟩ : Mat2 ℚ) = false := by
  refine ⟨?_, by rfl⟩
  show Mat2.reduce_loop 2 (List.range 2) _ 0 = _
  rw [show List.range 2 = [0, 1] from rfl]
  simp only [Mat2.reduce_loop, Mat2.column_list, Mat2.reduce_inner, Mat2.swap_rows,
    Mat2.scale_row, Mat2.get_idx, Mat2.set_row]
  norm_num

/-- C2: the claim says `append_column` on a length-matching input
increments the column count and leaves the row count unchanged.  The
source instead executes `self.n += 1`: on the 1×1 matrix `[[5]]` with new
column `[7]` it returns success and does append `7` to the single row, but
the stored row count `n` becomes `2` while the stored column count `m`
stays `1`. -/
theorem append_column_bumps_row_count :
    Mat2.append_column (⟨[[(5 : ℤ)]], 1, 1⟩ : Mat2 ℤ) [7] =
      (true, ⟨[[5, 7]], 2, 1⟩) := by
  decide

/-- C3: the claim says every successful public operation preserves the
shape invariant (`n` equals the number of rows of `data`, every row has
length `m`).  A successful `append_column` breaks both halves: on the 1×2
matrix `[[1,2]]` with new column `[9]` the call reports success, yet the
stored row count is `2` while `data` holds one row, and that row has
length `3` while the stored column count is `2`. -/
theorem append_column_breaks_invariant :
    (Mat2.append_column (⟨[[(1 : ℤ), 2]], 1, 2⟩ : Mat2 ℤ) [9]).1 = true ∧
    ((Mat2.append_column (⟨[[(1 : ℤ), 2]], 1, 2⟩ : Mat2 ℤ) [9]).2).n = 2 ∧
    ((Mat2.append_column (⟨[[(1 : ℤ), 2]], 1, 2⟩ : Mat2 ℤ) [9]).2).data.length = 1 ∧
    ∃ row ∈ ((Mat2.append_column (⟨[[(1 : ℤ), 2]], 1, 2⟩ : Mat2 ℤ) [9]).2).data,
      row.length ≠ ((Mat2.append_column (⟨[[(1 : ℤ), 2]], 1, 2⟩ : Mat2 ℤ) [9]).2).m := by
  decide

/-- C4: the claim says `get_opt(row, col)` returns absent exactly when
`row ≥ rows` or `col ≥ cols` and otherwise returns the element without
failing.  The source compares against the wrong dimensions with `>`:
on the 1×1 matrix `[[5]]`, `get_opt 1 0` has `row ≥ rows` so the claim
demands absent, but the bound check passes and the call aborts on
out-of-bounds indexing; on the 5×1 matrix, `get_opt 2 0` is fully in
range so the claim demands the element `3`, but the source returns
absent because it compares the row index `2` against the column count
`1`. -/
theorem get_opt_wrong_dimension :
    Mat2.get_opt (⟨[[(5 : ℤ)]], 1, 1⟩ : Mat2 ℤ) 1 0 = Except.error () ∧
    Mat2.get_opt (⟨[[(1 : ℤ)], [2], [3], [4], [5]], 5, 1⟩ : Mat2 ℤ) 2 0 =
      Except.ok none := by
  exact ⟨rfl, rfl⟩

/-- C7: `is_rref` evaluated on the five matrices named by the claim (the
3×3 instances of the source's test suite): true on the all-zero matrix,
the identity, and `[[1,0,2],[0,1,6],[0,0,0]]`; false on
`[[1,2,3],[1,5,6],[1,8,9]]` and `[[1,1,2],[0,0,1],[0,0,0]]`. -/
theorem is_rref_examples :
    Mat2.is_rref (⟨[[(0 : ℤ), 0, 0], [0, 0, 0], [0, 0, 0]], 3, 3⟩ : Mat2 ℤ) = true ∧
    Mat2.is_rref (⟨[[(1 : ℤ), 0, 0], [0, 1, 0], [0, 0, 1]], 3, 3⟩ : Mat2 ℤ) = true ∧
    Mat2.is_rref (⟨[[(1 : ℤ), 0, 2], [0, 1, 6], [0, 0, 0]], 3, 3⟩ : Mat2 ℤ) = true ∧
    Mat2.is_rref (⟨[[(1 : ℤ), 2, 3], [1, 5, 6], [1, 8, 9]], 3, 3⟩ : Mat2 ℤ) = false ∧
    Mat2.is_rref (⟨[[(1 : ℤ), 1, 2], [0, 0, 1], [0, 0, 0]], 3, 3⟩ : Mat2 ℤ) = false := by
  decide

/-- C5: a size-mismatched `append_column`, `append_row` or `augment`
reports failure and returns the receiver bit-for-bit unchanged — the
source checks the length before any write. -/
theorem mismatch_leaves_matrix_unchanged {T : Type}
    (M other : Mat2 T) (c r : List T) :
    (c.length ≠ M.n → Mat2.append_column M c = (false, M)) ∧
    (r.length ≠ M.m → Mat2.append_row M r = (false, M)) ∧
    (other.n ≠ M.n → Mat2.augment M other = (false, M)) := by
  refine ⟨fun h => ?_, fun h => ?_, fun h => ?_⟩
  · unfold Mat2.append_column
    rw [if_pos (Ne.symm h)]
  · unfold Mat2.append_row
    rw [if_pos (Ne.symm h)]
  · unfold Mat2.augment
    rw [if_pos (Ne.symm h)]

/-- Witness for C5 at concrete mismatched inputs. -/
theorem mismatch_leaves_matrix_unchanged_w :
    Mat2.append_column (⟨[[(1 : ℤ)]], 1, 1⟩ : Mat2 ℤ) [1, 2] =
      (false, ⟨[[1]], 1, 1⟩) ∧
    Mat2.append_row (⟨[[(1 : ℤ)]], 1, 1⟩ : Mat2 ℤ) [] = (false, ⟨[[1]], 1, 1⟩) ∧
    Mat2.augment (⟨[[(1 : ℤ)]], 1, 1⟩ : Mat2 ℤ) ⟨[[1], [2]], 2, 1⟩ =
      (false, ⟨[[1]], 1, 1⟩) :=
  ⟨(mismatch_leaves_matrix_unchanged _ ⟨[[1], [2]], 2, 1⟩ [1, 2] []).1 (by decide),
   (mismatch_leaves_matrix_unchanged _ ⟨[[1], [2]], 2, 1⟩ [1, 2] []).2.1 (by decide),
   (mismatch_leaves_matrix_unchanged _ ⟨[[1], [2]], 2, 1⟩ [1, 2] []).2.2 (by decide)⟩

/-- Helper: on a nonempty input whose rows all have the first row's
length, `from_vec` succeeds and wraps the input verbatim. -/
theorem from_vec_pos {T : Type} (v : List (List T)) (hne : v ≠ [])
    (hall : ∀ r ∈ v, r.length = (v.headD []).length) :
    Mat2.from_vec v = some ⟨v, v.length, (v.headD []).length⟩ := by
  unfold Mat2.from_vec
  rw [if_neg (fun h => hne (List.length_eq_zero.mp h)), if_pos]
  exact List.all_eq_true.mpr (fun r hr => by simpa using hall r hr)

/-- C6: `from_vec` returns absent exactly when the outer list is empty or
some inner list's length differs from the first inner list's length; on
success the stored row count is the outer length and the stored column
count the common inner length. -/
theorem from_vec_spec {T : Type} (v : List (List T)) :
    (Mat2.from_vec v = none ↔ v = [] ∨ ∃ r ∈ v, r.length ≠ (v.headD []).length) ∧
    ∀ M : Mat2 T, Mat2.from_vec v = some M →
      M.n = v.length ∧ M.m = (v.headD []).length := by
  by_cases hne : v = []
  · subst hne
    exact ⟨by simp [Mat2.from_vec], fun M hM => by simp [Mat2.from_vec] at hM⟩
  · by_cases hall : ∀ r ∈ v, r.length = (v.headD []).length
    · rw [from_vec_pos v hne hall]
      constructor
      · constructor
        · intro h; cases h
        · rintro (h | ⟨r, hr, hlen⟩)
          · exact absurd h hne
          · exact absurd (hall r hr) hlen
      · intro M hM
        cases hM
        exact ⟨rfl, rfl⟩
    · have hnone : Mat2.from_vec v = none := by
        unfold Mat2.from_vec
        rw [if_neg (fun h => hne (List.length_eq_zero.mp h)), if_neg]
        intro hc
        exact hall (fun r hr => by simpa using List.all_eq_true.mp hc r hr)
      rw [hnone]
      refine ⟨⟨fun _ => ?_, fun _ => rfl⟩, fun M hM => by cases hM⟩
      right
      push_neg at hall
      exact hall

/-- Witness for C6 on the successful input `[[1,2],[3,4]]`. -/
theorem from_vec_spec_w :
    (⟨[[(1 : ℤ), 2], [3, 4]], 2, 2⟩ : Mat2 ℤ).n = ([[(1 : ℤ), 2], [3, 4]] : List (List ℤ)).length ∧
    (⟨[[(1 : ℤ), 2], [3, 4]], 2, 2⟩ : Mat2 ℤ).m = (([[(1 : ℤ), 2], [3, 4]] : List (List ℤ)).headD []).length :=
  (from_vec_spec [[(1 : ℤ), 2], [3, 4]]).2 _ (by decide)

/-- C10: on a nonempty rectangular input, `from_vec` succeeds and the
matrix stores the rows verbatim (`data` is the input itself) and serves
each row back unchanged through `get_row_opt`. -/
theorem from_vec_verbatim {T : Type} (v : List (List T)) (hne : v ≠ [])
    (hall : ∀ r ∈ v, r.length = (v.headD []).length) :
    Mat2.from_vec v = some ⟨v, v.length, (v.headD []).length⟩ ∧
    ∀ i, i < v.length →
      Mat2.get_row_opt (⟨v, v.length, (v.headD []).length⟩ : Mat2 T) i = v[i]? ∧
      (v[i]?).isSome := by
  refine ⟨from_vec_pos v hne hall, fun i hi => ⟨rfl, ?_⟩⟩
  rw [List.getElem?_eq_getElem hi]
  rfl

/-- Witness for C10 at `[[1,2],[3,4]]`. -/
theorem from_vec_verbatim_w :
    Mat2.from_vec ([[(1 : ℤ), 2], [3, 4]]) = some ⟨[[(1 : ℤ), 2], [3, 4]], 2, 2⟩ ∧
    Mat2.get_row_opt (⟨[[(1 : ℤ), 2], [3, 4]], 2, 2⟩ : Mat2 ℤ) 1 = some [3, 4] := by
  have h := from_vec_verbatim ([[(1 : ℤ), 2], [3, 4]]) (by decide) (by decide)
  refine ⟨by simpa using h.1, ?_⟩
  have h2 := (h.2 1 (by decide)).1
  simpa using h2

/-- C8: `add_scaled i j a` on `[[1,2,3],[4,5,6],[7,8,9]]` with source row
0, target row 1 and scalar 1 yields target row `[5,7,9]` with row 0
unchanged; in general, for in-range rows of a rectangular matrix, the call
succeeds, every row other than the target is untouched, and each target
entry becomes `source[c] * a + target[c]` where both operands are the
values read from the matrix before the write. -/
theorem add_scaled_spec {T : Type} [Mul T] [Add T] (M : Mat2 T) (i j : Nat) (a : T)
    (hrect : ∀ row ∈ M.data, row.length = M.m)
    (hi : i < M.data.length) (hj : j < M.data.length) :
    Mat2.add_scaled (⟨[[(1 : ℤ), 2, 3], [4, 5, 6], [7, 8, 9]], 3, 3⟩ : Mat2 ℤ) 0 1 1 =
      some ⟨[[1, 2, 3], [5, 7, 9], [7, 8, 9]], 3, 3⟩ ∧
    ∃ M2 : Mat2 T, Mat2.add_scaled M i j a = some M2 ∧
      M2.n = M.n ∧ M2.m = M.m ∧
      (∀ k, k ≠ j → M2.data[k]? = M.data[k]?) ∧
      (∀ c, c < M.m → ∃ x y, Mat2.get_idx M i c = some x ∧ Mat2.get_idx M j c = some y ∧
        Mat2.get_idx M2 j c = some (x * a + y)) := by
  refine ⟨by decide, ?_⟩
  have hri : M.data[i]? = some M.data[i] := List.getElem?_eq_getElem hi
  have hrj : M.data[j]? = some M.data[j] := List.getElem?_eq_getElem hj
  have hlen_i : (M.data[i]).length = M.m := hrect _ (List.getElem_mem hi)
  have hlen_j : (M.data[j]).length = M.m := hrect _ (List.getElem_mem hj)
  refine ⟨Mat2.set_row M j (List.zipWith (fun x y => x * a + y) M.data[i] M.data[j]),
    ?_, rfl, rfl, ?_, ?_⟩
  · simp only [Mat2.add_scaled, hri, hrj]
    rw [if_pos (show (M.data[i]).length ≤ (M.data[j]).length by omega)]
  · intro k hk
    exact List.getElem?_set_ne (Ne.symm hk)
  · intro c hc
    have hci : c < (M.data[i]).length := by rw [hlen_i]; exact hc
    have hcj : c < (M.data[j]).length := by rw [hlen_j]; exact hc
    refine ⟨M.data[i][c], M.data[j][c], ?_, ?_, ?_⟩
    · show (M.data[i]?).bind _ = _
      rw [hri, Option.some_bind, List.getElem?_eq_getElem hci]
    · show (M.data[j]?).bind _ = _
      rw [hrj, Option.some_bind, List.getElem?_eq_getElem hcj]
    · show ((M.data.set j _)[j]?).bind _ = _
      rw [List.getElem?_set_self hj, Option.some_bind]
      have hcz : c < (List.zipWith (fun x y => x * a + y) M.data[i] M.data[j]).length := by
        rw [List.length_zipWith, hlen_i, hlen_j, Nat.min_self]
        exact hc
      rw [List.getElem?_eq_getElem hcz, List.getElem_zipWith]

/-- Witness for C8 at the claim's 3x3 matrix. -/
theorem add_scaled_spec_w :
    ∃ M2 : Mat2 ℤ,
      Mat2.add_scaled (⟨[[(1 : ℤ), 2, 3], [4, 5, 6], [7, 8, 9]], 3, 3⟩ : Mat2 ℤ) 0 1 1 =
        some M2 ∧
      M2.n = 3 ∧ M2.m = 3 ∧
      (∀ k, k ≠ 1 → M2.data[k]? = (⟨[[(1 : ℤ), 2, 3], [4, 5, 6], [7, 8, 9]], 3, 3⟩ : Mat2 ℤ).data[k]?) ∧
      (∀ c, c < 3 → ∃ x y,
        Mat2.get_idx (⟨[[(1 : ℤ), 2, 3], [4, 5, 6], [7, 8, 9]], 3, 3⟩ : Mat2 ℤ) 0 c = some x ∧
        Mat2.get_idx (⟨[[(1 : ℤ), 2, 3], [4, 5, 6], [7, 8, 9]], 3, 3⟩ : Mat2 ℤ) 1 c = some y ∧
        Mat2.get_idx M2 1 c = some (x * 1 + y)) :=
  (add_scaled_spec (⟨[[(1 : ℤ), 2, 3], [4, 5, 6], [7, 8, 9]], 3, 3⟩ : Mat2 ℤ) 0 1 1
    (by decide) (by decide) (by decide)).2

/-- Helper: when `ColumnIterator::next` produces nothing it leaves the
iterator state unchanged, so exhaustion is permanent. -/
theorem column_next_none_fix {T : Type} (M : Mat2 T) (it : ColumnIterator)
    (h : (ColumnIterator.next M it).1 = none) :
    ColumnIterator.next M it = (none, it) := by
  unfold ColumnIterator.next at h ⊢
  cases hm : (M.data[it.i]?).bind (fun s => s[it.col]?) with
  | none => rfl
  | some x => rw [hm] at h; cases h

/-- Helper: an iterator whose current lookup fails keeps yielding `none`
forever without moving. -/
theorem column_run_exhausted {T : Type} (M : Mat2 T) (col i0 : Nat)
    (h : (M.data[i0]?).bind (fun s => s[col]?) = none) :
    ∀ k, ColumnIterator.run M ⟨col, i0⟩ k = (List.replicate k none, ⟨col, i0⟩) := by
  intro k
  induction k with
  | zero => rfl
  | succ k ih =>
    have hnext : ColumnIterator.next M ⟨col, i0⟩ = (none, ⟨col, i0⟩) := by
      unfold ColumnIterator.next
      rw [h]
    unfold ColumnIterator.run
    rw [hnext]
    simp [ih, List.replicate]

/-- Helper: when every row has an entry in column `col`, running the
iterator from row `i` yields the remaining column entries in order and
then `none` forever, ending with the cursor at the number of rows. -/
theorem column_run_full {T : Type} (M : Mat2 T) (col : Nat)
    (hcol : ∀ row ∈ M.data, (row[col]?).isSome) :
    ∀ n i k, i + n = M.data.length →
      ColumnIterator.run M ⟨col, i⟩ (n + k) =
        (((M.data.drop i).map (fun row => row[col]?)) ++ List.replicate k none,
          ⟨col, M.data.length⟩) := by
  intro n
  induction n with
  | zero =>
    intro i k hi
    have hnone : (M.data[i]?).bind (fun s => s[col]?) = none := by
      rw [List.getElem?_eq_none (by omega)]
      rfl
    rw [List.drop_eq_nil_of_le (by omega)]
    have := column_run_exhausted M col i hnone k
    rw [Nat.zero_add, this]
    have hieq : i = M.data.length := by omega
    subst hieq
    rfl
  | succ n ih =>
    intro i k hi
    have hilt : i < M.data.length := by omega
    have hrow : M.data[i]? = some M.data[i] := List.getElem?_eq_getElem hilt
    obtain ⟨x, hx⟩ := Option.isSome_iff_exists.mp (hcol _ (List.getElem_mem hilt))
    have hnext : ColumnIterator.next M ⟨col, i⟩ = (some x, ⟨col, i + 1⟩) := by
      unfold ColumnIterator.next
      rw [hrow, Option.some_bind, hx]
    rw [show n + 1 + k = (n + k) + 1 from by omega]
    unfold ColumnIterator.run
    rw [hnext]
    have ih2 := ih (i + 1) k (by omega)
    simp only [ih2, List.drop_eq_getElem_cons hilt, List.map_cons, hx]
    rfl

/-- C9: a column view over an in-range column of a shape-consistent
matrix yields the entries of that column for rows `0..rows-1` in order and
then signals exhaustion forever; over an out-of-range column it signals
exhaustion immediately; and any `next` that signals exhaustion leaves the
iterator state unchanged, so further requests keep signaling exhaustion. -/
theorem column_iterator_spec {T : Type} (M : Mat2 T) (col : Nat)
    (hn : M.n = M.data.length) (hrect : ∀ row ∈ M.data, row.length = M.m) :
    (col < M.m → ∀ k,
      ColumnIterator.run M ⟨col, 0⟩ (M.n + k) =
        ((M.data.map (fun row => row[col]?)) ++ List.replicate k none, ⟨col, M.n⟩) ∧
      ∀ row ∈ M.data, (row[col]?).isSome) ∧
    (M.m ≤ col →
      ∀ k, ColumnIterator.run M ⟨col, 0⟩ k = (List.replicate k none, ⟨col, 0⟩)) ∧
    (∀ it : ColumnIterator, (ColumnIterator.next M it).1 = none →
      ColumnIterator.next M it = (none, it)) := by
  refine ⟨fun hc k => ?_, fun hc k => ?_, fun it h => column_next_none_fix M it h⟩
  · have hsome : ∀ row ∈ M.data, (row[col]?).isSome := by
      intro row hr
      rw [List.getElem?_eq_getElem (by rw [hrect row hr]; exact hc)]
      rfl
    have h := column_run_full M col hsome M.data.length 0 k (by omega)
    rw [List.drop_zero] at h
    refine ⟨?_, hsome⟩
    rw [hn]
    exact h
  · have hnone : (M.data[0]?).bind (fun s => s[col]?) = none := by
      cases hd : M.data[0]? with
      | none => rfl
      | some row =>
        rw [Option.some_bind,
          List.getElem?_eq_none (by rw [hrect row (List.getElem?_mem hd)]; exact hc)]
    exact column_run_exhausted M col 0 hnone k

/-- Witness for C9 on the test suite's 3x3 matrix, at column 0 and at the
out-of-range column 5. -/
theorem column_iterator_spec_w :
    ColumnIterator.run (⟨[[(1 : ℤ), 2, 3], [4, 5, 6], [7, 8, 9]], 3, 3⟩ : Mat2 ℤ)
      ⟨0, 0⟩ 4 = ([some 1, some 4, some 7, none], ⟨0, 3⟩) ∧
    ColumnIterator.run (⟨[[(1 : ℤ), 2, 3], [4, 5, 6], [7, 8, 9]], 3, 3⟩ : Mat2 ℤ)
      ⟨5, 0⟩ 2 = ([none, none], ⟨5, 0⟩) := by
  have h := column_iterator_spec (⟨[[(1 : ℤ), 2, 3], [4, 5, 6], [7, 8, 9]], 3, 3⟩ : Mat2 ℤ)
  refine ⟨?_, ?_⟩
  · have h1 := ((h 0 (by decide) (by decide)).1 (by decide) 1).1
    simpa using h1
  · have h2 := (h 5 (by decide) (by decide)).2.1 (by decide) 2
    simpa using h2

end Linalg
